import Mathlib

/-!
Shallow embedding of the backtesting core of this repository,
`src/src/enhanced_algo_test.py` (class `BacktestFramework`).

Modelling conventions:
* Timestamps are hours since an epoch (the system works on hourly bars); a
  calendar day is the quotient by 24.  A pandas `Datetime` cell is either the
  raw CSV text (`DtVal.raw`) or a parsed instant (`DtVal.ts`); both carry the
  instant they denote, and `pd.to_datetime` replaces raw cells by parsed ones.
* Prices, sizes, fees and percentages are exact rationals.
* `raise ValueError` is `Except.error`; the error value also carries the
  market-data object as it stands when the exception leaves the function,
  because the in-place `Datetime` conversion of lines 137-138 survives a later
  raise.
-/

deriving instance DecidableEq for Except

namespace TradingSim

/-- One pandas `Datetime` cell: raw CSV text or a parsed instant, each
denoting the instant `h` (hours since the epoch). -/
inductive DtVal where
  | raw (h : Nat)
  | ts (h : Nat)
deriving DecidableEq

/-- The instant a `Datetime` cell denotes. -/
def DtVal.hour : DtVal → Nat
  | .raw h => h
  | .ts h => h

/-- Whether the cell is already of datetime dtype. -/
def DtVal.isParsed : DtVal → Bool
  | .raw _ => false
  | .ts _ => true

/-- Applies `pd.to_datetime` to one cell. -/
def DtVal.parse : DtVal → DtVal
  | .raw h => .ts h
  | .ts h => .ts h

/-- One row of a `market_data` DataFrame: Datetime, Open, High, Low, Close,
Volume. -/
structure Bar where
  dt : DtVal
  «open» : ℚ
  high : ℚ
  low : ℚ
  close : ℚ
  volume : ℚ
deriving DecidableEq

/-- Applies `pd.to_datetime` to one row. -/
def Bar.parseDt (b : Bar) : Bar := { b with dt := b.dt.parse }

/-- Lines 137-138: `market_data['Datetime'] = pd.to_datetime(...)`, guarded by
`is_datetime64_any_dtype` — the column is converted in place only when it is
not already of datetime dtype. -/
def ensureDatetime (market_data : List Bar) : List Bar :=
  if market_data.all (fun b => b.dt.isParsed) then market_data
  else market_data.map Bar.parseDt

/-- Lines 10-18 of the source. -/
structure TradePosition where
  entry_time : DtVal
  entry_price : ℚ
  position_size : ℚ
  direction : String
  ticker : String
  agent_name : String
  reasoning : String
deriving DecidableEq

/-- The two shapes the `exit_reason` string of lines 219-223 can take:
`"Profit target of ...% reached"` or `"Time-based exit after ..."`. -/
inductive ExitReason where
  | target_hit
  | time_limit
deriving DecidableEq

/-- Lines 20-34 of the source. -/
structure TradeResult where
  entry_time : DtVal
  exit_time : DtVal
  entry_price : ℚ
  exit_price : ℚ
  position_size : ℚ
  direction : String
  ticker : String
  fees : ℚ
  pnl : ℚ
  pnl_pct : ℚ
  agent_name : String
  reasoning : String
  exit_reason : ExitReason
deriving DecidableEq

/-- The mutable state of a `BacktestFramework` instance (lines 36-54; the
`data_dir`/logging fields play no role in the simulation). -/
structure BacktestFramework where
  fee_pct : ℚ
  reference_date : Option Nat
  trades : List TradeResult
  current_positions : List (String × TradePosition)
deriving DecidableEq

/-- Python dict assignment `self.current_positions[ticker] = position`
(insertion order preserved, existing key overwritten in place). -/
def setPos (m : List (String × TradePosition)) (k : String) (v : TradePosition) :
    List (String × TradePosition) :=
  if (m.lookup k).isSome then m.map (fun p => if p.1 = k then (k, v) else p)
  else m ++ [(k, v)]

/-- Python `int(...)` on the decimal digit strings the decision schema guarantees
(the validated form matches the regex of digits followed by `d`). -/
def parseDigits (cs : List Char) : Option Nat :=
  if cs ≠ [] && cs.all Char.isDigit then
    some (cs.foldl (fun n c => 10 * n + (c.toNat - '0'.toNat)) 0)
  else none

/-- Lines 128-130: `expected_timeframe` must end in `'d'`; the prefix is
parsed with `int(...)`, whose failure is a raised `ValueError`. -/
def parseTimeframe (s : String) : Except String Nat :=
  if s.data.getLast? = some 'd' then
    match parseDigits s.data.dropLast with
    | some n => Except.ok n
    | none => Except.error "invalid literal for int"
  else Except.error "Unsupported timeframe format"

/-- Lines 148-152: the profit-target price for the given `action`
(`'BUY'` vs the `else` = SHORT branch). -/
def targetOf (action : String) (entry_price expected_profit_percentage : ℚ) : ℚ :=
  if action = "BUY" then entry_price * (1 + expected_profit_percentage)
  else entry_price * (1 - expected_profit_percentage)

/-- The per-bar target condition of lines 166 and 174: for `'BUY'`,
`High ≥ target`; otherwise `Low ≤ target`.  (`daily['High'].max() ≥ target`
holds iff some bar of the day satisfies this.) -/
def qualifies (action : String) (target_price : ℚ) (b : Bar) : Bool :=
  if action = "BUY" then decide (target_price ≤ b.high)
  else decide (b.low ≤ target_price)

/-- The calendar day of a bar, `Datetime.dt.date` in the hour model. -/
def dayOf (b : Bar) : Nat := b.dt.hour / 24

/-- Insertion into a sorted list of day keys. -/
def insertSorted (d : Nat) : List Nat → List Nat
  | [] => [d]
  | x :: xs => if d ≤ x then d :: x :: xs else x :: insertSorted d xs

/-- The sorted order in which `groupby` (with its default `sort=True`)
presents the day keys. -/
def sortDays (l : List Nat) : List Nat := l.foldr insertSorted []

/-- Lines 164-180: iterate the calendar-day groups in ascending day order; in
the first day whose group contains a qualifying bar, return the target price
together with the `Datetime` of the first qualifying row (`.iloc[0]`), and
stop (`break`). -/
def scanDayList (action : String) (target_price : ℚ) (bars : List Bar) :
    List Nat → Option (ℚ × DtVal)
  | [] => none
  | d :: ds =>
    match (bars.filter (fun b => decide (dayOf b = d))).find? (qualifies action target_price) with
    | some b => some (target_price, b.dt)
    | none => scanDayList action target_price bars ds

/-- Lines 164-180 as a whole: `trade_data.groupby(trade_data['Datetime'].dt.date)`
yields the groups keyed and sorted by calendar day, each group keeping the
original row order. -/
def dayGroupScan (action : String) (target_price : ℚ) (bars : List Bar) :
    Option (ℚ × DtVal) :=
  scanDayList action target_price bars (sortDays (bars.map dayOf).dedup)

/-- Line 141: the mask `market_data['Datetime'] >= entry_time`, resolved to
the first row satisfying it (`.iloc[0]`). -/
def findEntry (market_data : List Bar) (entry_time : Nat) : Option Bar :=
  market_data.find? (fun b => decide (entry_time ≤ b.dt.hour))

/-- Lines 155-158: the `trade_data` window
`actual_entry_time ≤ Datetime ≤ max_exit_time`. -/
def tradeWindow (market_data : List Bar) (actual_entry_time : DtVal)
    (max_exit_time : Nat) : List Bar :=
  market_data.filter (fun b =>
    decide (actual_entry_time.hour ≤ b.dt.hour) && decide (b.dt.hour ≤ max_exit_time))

/-- Line 184: the mask `market_data['Datetime'] >= max_exit_time`, resolved to
the first row satisfying it. -/
def findTimeExit (market_data : List Bar) (max_exit_time : Nat) : Option Bar :=
  market_data.find? (fun b => decide (max_exit_time ≤ b.dt.hour))

/-- Lines 190-239: fees, PnL and the `TradeResult` record. -/
def buildResult (fee_pct : ℚ) (ticker action : String) (position_size : ℚ)
    (agent_name reasoning : String) (entry_price : ℚ) (actual_entry_time : DtVal)
    (target_price exit_price : ℚ) (actual_exit_time : DtVal) : TradeResult :=
  let entry_value := entry_price * position_size
  let exit_value := exit_price * position_size
  let entry_fee := entry_value * fee_pct
  let exit_fee := exit_value * fee_pct
  let pnl :=
    if action = "BUY" then (exit_value - entry_value) - (entry_fee + exit_fee)
    else (entry_value - exit_value) - (entry_fee + exit_fee)
  let pnl_pct :=
    if action = "BUY" then ((exit_price - entry_price) / entry_price) * 100
    else ((entry_price - exit_price) / entry_price) * 100
  let direction := if action = "BUY" then "LONG" else "SHORT"
  let exit_reason :=
    if exit_price = target_price then ExitReason.target_hit else ExitReason.time_limit
  { entry_time := actual_entry_time, exit_time := actual_exit_time,
    entry_price := entry_price, exit_price := exit_price,
    position_size := position_size, direction := direction, ticker := ticker,
    fees := entry_fee + exit_fee, pnl := pnl, pnl_pct := pnl_pct,
    agent_name := agent_name, reasoning := reasoning, exit_reason := exit_reason }

/-- Lines 109-242, `BacktestFramework.execute_trade`, split off from the
parts that read only `self.fee_pct` and `self.reference_date`.  Returns the
`TradeResult`, the `TradePosition` recorded at lines 204-216, and the
market-data object as left behind (lines 137-138 convert it in place). -/
def execute_trade_core (fee_pct : ℚ) (reference_date : Option Nat)
    (ticker action : String) (market_data : List Bar) (position_size : ℚ)
    (agent_name reasoning expected_timeframe : String)
    (expected_profit_percentage : ℚ) :
    Except (String × List Bar) (TradeResult × TradePosition × List Bar) :=
  match reference_date with
  | none => Except.error ("reference_date must be set to execute trades", market_data)
  | some entry_time =>
    match parseTimeframe expected_timeframe with
    | Except.error e => Except.error (e, market_data)
    | Except.ok days =>
      let max_exit_time := entry_time + days * 24
      let md := ensureDatetime market_data
      match findEntry md entry_time with
      | none => Except.error ("No data available at or after entry time", md)
      | some entryBar =>
        let entry_price := entryBar.close
        let actual_entry_time := entryBar.dt
        let target_price := targetOf action entry_price expected_profit_percentage
        let trade_data := tradeWindow md actual_entry_time max_exit_time
        let exitRes : Except (String × List Bar) (ℚ × DtVal) :=
          match dayGroupScan action target_price trade_data with
          | some pr => Except.ok pr
          | none =>
            match findTimeExit md max_exit_time with
            | none => Except.error ("No data available at or after exit time", md)
            | some exitBar => Except.ok (exitBar.close, exitBar.dt)
        match exitRes with
        | Except.error e => Except.error e
        | Except.ok (exit_price, actual_exit_time) =>
          Except.ok
            (buildResult fee_pct ticker action position_size agent_name reasoning
              entry_price actual_entry_time target_price exit_price actual_exit_time,
            { entry_time := actual_entry_time, entry_price := entry_price,
              position_size := position_size,
              direction := if action = "BUY" then "LONG" else "SHORT",
              ticker := ticker, agent_name := agent_name, reasoning := reasoning },
            md)

/-- Method `BacktestFramework.execute_trade` (lines 109-242): the core computation
plus the state mutations of lines 216 (`current_positions`) and 241
(`self.trades.append`). -/
def execute_trade (self : BacktestFramework) (ticker action : String)
    (market_data : List Bar) (position_size : ℚ)
    (agent_name reasoning expected_timeframe : String)
    (expected_profit_percentage : ℚ) :
    Except (String × List Bar) (TradeResult × BacktestFramework × List Bar) :=
  match execute_trade_core self.fee_pct self.reference_date ticker action market_data
      position_size agent_name reasoning expected_timeframe expected_profit_percentage with
  | Except.error e => Except.error e
  | Except.ok (result, position, md) =>
    Except.ok (result,
      { self with current_positions := setPos self.current_positions ticker position,
                  trades := self.trades ++ [result] },
      md)

/-! ### Helper lemmas about sorted-day iteration and `find?` -/

lemma mem_insertSorted {x d : Nat} : ∀ {l : List Nat},
    x ∈ insertSorted d l ↔ x = d ∨ x ∈ l := by
  intro l
  induction l with
  | nil => simp [insertSorted]
  | cons a t ih =>
    by_cases h : d ≤ a
    · simp [insertSorted, h]
    · simp only [insertSorted, if_neg h, List.mem_cons, ih]
      tauto

lemma insertSorted_perm (d : Nat) (l : List Nat) :
    List.Perm (insertSorted d l) (d :: l) := by
  induction l with
  | nil => exact List.Perm.refl _
  | cons a t ih =>
    by_cases h : d ≤ a
    · simp [insertSorted, h]
    · simp only [insertSorted, if_neg h]
      exact (ih.cons a).trans (List.Perm.swap d a t)

lemma sortDays_perm (l : List Nat) : List.Perm (sortDays l) l := by
  induction l with
  | nil => exact List.Perm.refl _
  | cons a t ih =>
    have h : sortDays (a :: t) = insertSorted a (sortDays t) := rfl
    rw [h]
    exact (insertSorted_perm a (sortDays t)).trans (ih.cons a)

lemma pairwise_insertSorted {d : Nat} : ∀ {l : List Nat},
    l.Pairwise (· ≤ ·) → (insertSorted d l).Pairwise (· ≤ ·) := by
  intro l
  induction l with
  | nil => intro _; simp [insertSorted]
  | cons a t ih =>
    intro h
    rcases List.pairwise_cons.mp h with ⟨ha, ht⟩
    by_cases hda : d ≤ a
    · simp only [insertSorted, if_pos hda]
      refine List.pairwise_cons.mpr ⟨?_, h⟩
      intro y hy
      rcases List.mem_cons.mp hy with rfl | hy'
      · exact hda
      · exact hda.trans (ha y hy')
    · simp only [insertSorted, if_neg hda]
      refine List.pairwise_cons.mpr ⟨?_, ih ht⟩
      intro y hy
      rcases mem_insertSorted.mp hy with rfl | hy'
      · exact Nat.le_of_not_le hda
      · exact ha y hy'

lemma sortDays_sorted (l : List Nat) : (sortDays l).Pairwise (· ≤ ·) := by
  induction l with
  | nil => simp [sortDays]
  | cons a t ih => exact pairwise_insertSorted ih

lemma sortDays_dedup_lt (l : List Nat) :
    (sortDays l.dedup).Pairwise (· < ·) := by
  have h1 : (sortDays l.dedup).Pairwise (· ≤ ·) := sortDays_sorted _
  have h2 : (sortDays l.dedup).Nodup :=
    ((sortDays_perm l.dedup).nodup_iff).mpr (List.nodup_dedup l)
  exact (h1.and h2).imp (fun h => lt_of_le_of_ne h.1 h.2)

lemma find?_filter {α : Type _} (p q : α → Bool) : ∀ {l : List α} {b : α},
    l.find? p = some b → q b = true → (l.filter q).find? p = some b := by
  intro l
  induction l with
  | nil => intro b h; simp at h
  | cons a t ih =>
    intro b h hq
    cases hpa : p a with
    | true =>
      rw [List.find?_cons_of_pos _ hpa] at h
      injection h with h
      subst h
      rw [List.filter_cons_of_pos hq, List.find?_cons_of_pos _ hpa]
    | false =>
      rw [List.find?_cons_of_neg _ (by simp [hpa])] at h
      by_cases hqa : q a = true
      · rw [List.filter_cons_of_pos hqa, List.find?_cons_of_neg _ (by simp [hpa])]
        exact ih h hq
      · rw [List.filter_cons_of_neg (by simpa using hqa)]
        exact ih h hq

/-- In a series sorted by timestamp, the positionally first bar satisfying a
predicate is also the earliest-timestamp bar satisfying it. -/
lemma find?_first_le {p : Bar → Bool} : ∀ {l : List Bar} {b : Bar},
    l.Pairwise (fun a c => a.dt.hour ≤ c.dt.hour) → l.find? p = some b →
    ∀ {x : Bar}, x ∈ l → p x = true → b.dt.hour ≤ x.dt.hour := by
  intro l
  induction l with
  | nil => intro b _ h; simp at h
  | cons a t ih =>
    intro b hs hb x hx hpx
    rcases List.pairwise_cons.mp hs with ⟨ha, ht⟩
    cases hpa : p a with
    | true =>
      rw [List.find?_cons_of_pos _ hpa] at hb
      injection hb with hb
      subst hb
      rcases List.mem_cons.mp hx with rfl | hx'
      · exact le_refl _
      · exact ha x hx'
    | false =>
      rw [List.find?_cons_of_neg _ (by simp [hpa])] at hb
      rcases List.mem_cons.mp hx with rfl | hx'
      · rw [hpa] at hpx; cases hpx
      · exact ih ht hb hx' hpx

lemma find?_exists {α : Type _} {p : α → Bool} : ∀ {l : List α} {x : α},
    x ∈ l → p x = true → ∃ b, l.find? p = some b := by
  intro l
  induction l with
  | nil => intro x h; simp at h
  | cons a t ih =>
    intro x hx hpx
    cases hpa : p a with
    | true => exact ⟨a, List.find?_cons_of_pos _ hpa⟩
    | false =>
      rcases List.mem_cons.mp hx with rfl | hx'
      · rw [hpa] at hpx; cases hpx
      · obtain ⟨b, hb⟩ := ih hx' hpx
        exact ⟨b, by rw [List.find?_cons_of_neg _ (by simp [hpa])]; exact hb⟩

/-! ### Behaviour of the calendar-day scan -/

lemma scanDayList_of_mem {action : String} {tp : ℚ} {bars : List Bar} {b : Bar}
    (hs : bars.Pairwise (fun a c => a.dt.hour ≤ c.dt.hour))
    (hfind : bars.find? (qualifies action tp) = some b) :
    ∀ {dates : List Nat}, dates.Pairwise (· < ·) → dayOf b ∈ dates →
      scanDayList action tp bars dates = some (tp, b.dt) := by
  intro dates
  induction dates with
  | nil => intro _ h; simp at h
  | cons d ds ih =>
    intro hsd hmem
    rcases List.pairwise_cons.mp hsd with ⟨hd, hds⟩
    by_cases hdb : d = dayOf b
    · have hf : (bars.filter (fun x => decide (dayOf x = d))).find?
          (qualifies action tp) = some b :=
        find?_filter _ _ hfind (by simp [hdb])
      simp [scanDayList, hf]
    · have hmem' : dayOf b ∈ ds := by
        rcases List.mem_cons.mp hmem with h | h
        · exact absurd h.symm hdb
        · exact h
      have hlt : d < dayOf b := hd _ hmem'
      have hnone : (bars.filter (fun x => decide (dayOf x = d))).find?
          (qualifies action tp) = none := by
        rw [List.find?_eq_none]
        intro x hxf hqx
        have hxl : x ∈ bars := (List.mem_filter.mp hxf).1
        have hxd : dayOf x = d := by
          have := (List.mem_filter.mp hxf).2
          simpa using this
        have hble : b.dt.hour ≤ x.dt.hour := find?_first_le hs hfind hxl hqx
        have hdiv : dayOf b ≤ dayOf x := Nat.div_le_div_right hble
        omega
      simp only [scanDayList, hnone]
      exact ih hds hmem'

lemma dayGroupScan_hit {action : String} {tp : ℚ} {bars : List Bar} {b : Bar}
    (hs : bars.Pairwise (fun a c => a.dt.hour ≤ c.dt.hour))
    (hfind : bars.find? (qualifies action tp) = some b) :
    dayGroupScan action tp bars = some (tp, b.dt) := by
  unfold dayGroupScan
  apply scanDayList_of_mem hs hfind (sortDays_dedup_lt _)
  have hbmem : b ∈ bars := List.mem_of_find?_eq_some hfind
  have h1 : dayOf b ∈ bars.map dayOf := List.mem_map_of_mem _ hbmem
  exact ((sortDays_perm _).mem_iff).mpr (List.mem_dedup.mpr h1)

lemma scanDayList_none {action : String} {tp : ℚ} {bars : List Bar}
    (h : ∀ x ∈ bars, qualifies action tp x = false) :
    ∀ dates, scanDayList action tp bars dates = none := by
  intro dates
  induction dates with
  | nil => rfl
  | cons d ds ih =>
    have hnone : (bars.filter (fun x => decide (dayOf x = d))).find?
        (qualifies action tp) = none := by
      rw [List.find?_eq_none]
      intro x hxf hqx
      have := h x (List.mem_filter.mp hxf).1
      rw [this] at hqx
      cases hqx
    simp only [scanDayList, hnone]
    exact ih

lemma dayGroupScan_none {action : String} {tp : ℚ} {bars : List Bar}
    (h : ∀ x ∈ bars, qualifies action tp x = false) :
    dayGroupScan action tp bars = none :=
  scanDayList_none h _

/-! ### Basic facts about the datetime conversion -/

lemma ensureDatetime_of_parsed {md : List Bar}
    (h : ∀ b ∈ md, b.dt.isParsed = true) : ensureDatetime md = md := by
  unfold ensureDatetime
  rw [if_pos]
  exact List.all_eq_true.mpr h

/-! ### Characterisations of `execute_trade_core` -/

lemma core_of_ref_none {fee : ℚ} {ticker action : String} {md : List Bar}
    {ps : ℚ} {an rs tf : String} {epp : ℚ} :
    execute_trade_core fee none ticker action md ps an rs tf epp =
      Except.error ("reference_date must be set to execute trades", md) := rfl

lemma core_of_tf_error {fee : ℚ} {et : Nat} {ticker action : String}
    {md : List Bar} {ps : ℚ} {an rs tf : String} {epp : ℚ} {e : String}
    (htf : parseTimeframe tf = Except.error e) :
    execute_trade_core fee (some et) ticker action md ps an rs tf epp =
      Except.error (e, md) := by
  unfold execute_trade_core
  rw [htf]

lemma core_of_scan_some {fee : ℚ} {et : Nat} {ticker action : String}
    {md : List Bar} {ps : ℚ} {an rs tf : String} {epp : ℚ} {days : Nat}
    {entryBar : Bar} {xp : ℚ} {xdt : DtVal}
    (htf : parseTimeframe tf = Except.ok days)
    (hentry : findEntry (ensureDatetime md) et = some entryBar)
    (hscan : dayGroupScan action (targetOf action entryBar.close epp)
      (tradeWindow (ensureDatetime md) entryBar.dt (et + days * 24)) = some (xp, xdt)) :
    execute_trade_core fee (some et) ticker action md ps an rs tf epp =
      Except.ok
        (buildResult fee ticker action ps an rs entryBar.close entryBar.dt
          (targetOf action entryBar.close epp) xp xdt,
        { entry_time := entryBar.dt, entry_price := entryBar.close,
          position_size := ps,
          direction := if action = "BUY" then "LONG" else "SHORT",
          ticker := ticker, agent_name := an, reasoning := rs },
        ensureDatetime md) := by
  unfold execute_trade_core
  rw [htf]
  dsimp only
  rw [hentry]
  dsimp only
  rw [hscan]

lemma core_of_time_exit {fee : ℚ} {et : Nat} {ticker action : String}
    {md : List Bar} {ps : ℚ} {an rs tf : String} {epp : ℚ} {days : Nat}
    {entryBar exitBar : Bar}
    (htf : parseTimeframe tf = Except.ok days)
    (hentry : findEntry (ensureDatetime md) et = some entryBar)
    (hscan : dayGroupScan action (targetOf action entryBar.close epp)
      (tradeWindow (ensureDatetime md) entryBar.dt (et + days * 24)) = none)
    (hexit : findTimeExit (ensureDatetime md) (et + days * 24) = some exitBar) :
    execute_trade_core fee (some et) ticker action md ps an rs tf epp =
      Except.ok
        (buildResult fee ticker action ps an rs entryBar.close entryBar.dt
          (targetOf action entryBar.close epp) exitBar.close exitBar.dt,
        { entry_time := entryBar.dt, entry_price := entryBar.close,
          position_size := ps,
          direction := if action = "BUY" then "LONG" else "SHORT",
          ticker := ticker, agent_name := an, reasoning := rs },
        ensureDatetime md) := by
  unfold execute_trade_core
  rw [htf]
  dsimp only
  rw [hentry]
  dsimp only
  rw [hscan]
  dsimp only
  rw [hexit]

lemma core_of_no_exit {fee : ℚ} {et : Nat} {ticker action : String}
    {md : List Bar} {ps : ℚ} {an rs tf : String} {epp : ℚ} {days : Nat}
    {entryBar : Bar}
    (htf : parseTimeframe tf = Except.ok days)
    (hentry : findEntry (ensureDatetime md) et = some entryBar)
    (hscan : dayGroupScan action (targetOf action entryBar.close epp)
      (tradeWindow (ensureDatetime md) entryBar.dt (et + days * 24)) = none)
    (hexit : findTimeExit (ensureDatetime md) (et + days * 24) = none) :
    execute_trade_core fee (some et) ticker action md ps an rs tf epp =
      Except.error ("No data available at or after exit time", ensureDatetime md) := by
  unfold execute_trade_core
  rw [htf]
  dsimp only
  rw [hentry]
  dsimp only
  rw [hscan]
  dsimp only
  rw [hexit]

lemma core_of_entry_none {fee : ℚ} {et : Nat} {ticker action : String}
    {md : List Bar} {ps : ℚ} {an rs tf : String} {epp : ℚ} {days : Nat}
    (htf : parseTimeframe tf = Except.ok days)
    (hentry : findEntry (ensureDatetime md) et = none) :
    execute_trade_core fee (some et) ticker action md ps an rs tf epp =
      Except.error ("No data available at or after entry time", ensureDatetime md) := by
  unfold execute_trade_core
  rw [htf]
  dsimp only
  rw [hentry]

/-! ### Field values of `buildResult` -/

lemma buildResult_entry_time {fee : ℚ} {t a : String} {ps : ℚ} {an rs : String}
    {ep : ℚ} {aet : DtVal} {tp xp : ℚ} {axt : DtVal} :
    (buildResult fee t a ps an rs ep aet tp xp axt).entry_time = aet := rfl

lemma buildResult_exit_time {fee : ℚ} {t a : String} {ps : ℚ} {an rs : String}
    {ep : ℚ} {aet : DtVal} {tp xp : ℚ} {axt : DtVal} :
    (buildResult fee t a ps an rs ep aet tp xp axt).exit_time = axt := rfl

lemma buildResult_entry_price {fee : ℚ} {t a : String} {ps : ℚ} {an rs : String}
    {ep : ℚ} {aet : DtVal} {tp xp : ℚ} {axt : DtVal} :
    (buildResult fee t a ps an rs ep aet tp xp axt).entry_price = ep := rfl

lemma buildResult_exit_price {fee : ℚ} {t a : String} {ps : ℚ} {an rs : String}
    {ep : ℚ} {aet : DtVal} {tp xp : ℚ} {axt : DtVal} :
    (buildResult fee t a ps an rs ep aet tp xp axt).exit_price = xp := rfl

lemma buildResult_position_size {fee : ℚ} {t a : String} {ps : ℚ} {an rs : String}
    {ep : ℚ} {aet : DtVal} {tp xp : ℚ} {axt : DtVal} :
    (buildResult fee t a ps an rs ep aet tp xp axt).position_size = ps := rfl

lemma buildResult_direction {fee : ℚ} {t a : String} {ps : ℚ} {an rs : String}
    {ep : ℚ} {aet : DtVal} {tp xp : ℚ} {axt : DtVal} :
    (buildResult fee t a ps an rs ep aet tp xp axt).direction =
      (if a = "BUY" then "LONG" else "SHORT") := rfl

lemma buildResult_fees {fee : ℚ} {t a : String} {ps : ℚ} {an rs : String}
    {ep : ℚ} {aet : DtVal} {tp xp : ℚ} {axt : DtVal} :
    (buildResult fee t a ps an rs ep aet tp xp axt).fees =
      ep * ps * fee + xp * ps * fee := rfl

lemma buildResult_pnl {fee : ℚ} {t a : String} {ps : ℚ} {an rs : String}
    {ep : ℚ} {aet : DtVal} {tp xp : ℚ} {axt : DtVal} :
    (buildResult fee t a ps an rs ep aet tp xp axt).pnl =
      (if a = "BUY" then (xp * ps - ep * ps) - (ep * ps * fee + xp * ps * fee)
       else (ep * ps - xp * ps) - (ep * ps * fee + xp * ps * fee)) := rfl

lemma buildResult_pnl_pct {fee : ℚ} {t a : String} {ps : ℚ} {an rs : String}
    {ep : ℚ} {aet : DtVal} {tp xp : ℚ} {axt : DtVal} :
    (buildResult fee t a ps an rs ep aet tp xp axt).pnl_pct =
      (if a = "BUY" then ((xp - ep) / ep) * 100 else ((ep - xp) / ep) * 100) := rfl

lemma buildResult_exit_reason {fee : ℚ} {t a : String} {ps : ℚ} {an rs : String}
    {ep : ℚ} {aet : DtVal} {tp xp : ℚ} {axt : DtVal} :
    (buildResult fee t a ps an rs ep aet tp xp axt).exit_reason =
      (if xp = tp then ExitReason.target_hit else ExitReason.time_limit) := rfl

/-! ### Lifting between `execute_trade` and `execute_trade_core` -/

lemma execute_trade_eq_of_core_ok {self : BacktestFramework} {ticker action : String}
    {md : List Bar} {ps : ℚ} {an rs tf : String} {epp : ℚ}
    {r : TradeResult} {pos : TradePosition} {md' : List Bar}
    (h : execute_trade_core self.fee_pct self.reference_date ticker action md ps
        an rs tf epp = Except.ok (r, pos, md')) :
    execute_trade self ticker action md ps an rs tf epp =
      Except.ok (r,
        { self with
          current_positions := setPos self.current_positions ticker pos,
          trades := self.trades ++ [r] }, md') := by
  unfold execute_trade
  rw [h]

lemma execute_trade_eq_of_core_err {self : BacktestFramework} {ticker action : String}
    {md : List Bar} {ps : ℚ} {an rs tf : String} {epp : ℚ} {e : String × List Bar}
    (h : execute_trade_core self.fee_pct self.reference_date ticker action md ps
        an rs tf epp = Except.error e) :
    execute_trade self ticker action md ps an rs tf epp = Except.error e := by
  unfold execute_trade
  rw [h]

lemma execute_trade_ok_core {self : BacktestFramework} {ticker action : String}
    {md : List Bar} {ps : ℚ} {an rs tf : String} {epp : ℚ}
    {r : TradeResult} {fw' : BacktestFramework} {md' : List Bar}
    (h : execute_trade self ticker action md ps an rs tf epp = Except.ok (r, fw', md')) :
    ∃ pos, execute_trade_core self.fee_pct self.reference_date ticker action md ps
        an rs tf epp = Except.ok (r, pos, md') ∧
      fw' = { self with
              current_positions := setPos self.current_positions ticker pos,
              trades := self.trades ++ [r] } := by
  cases hc : execute_trade_core self.fee_pct self.reference_date ticker action md ps
      an rs tf epp with
  | error e => rw [execute_trade_eq_of_core_err hc] at h; cases h
  | ok v =>
    obtain ⟨r0, pos0, md0⟩ := v
    rw [execute_trade_eq_of_core_ok hc] at h
    simp only [Except.ok.injEq, Prod.mk.injEq] at h
    obtain ⟨h1, h2, h3⟩ := h
    subst h1
    subst h3
    exact ⟨pos0, rfl, h2.symm⟩

lemma execute_trade_err_core {self : BacktestFramework} {ticker action : String}
    {md : List Bar} {ps : ℚ} {an rs tf : String} {epp : ℚ} {e : String × List Bar}
    (h : execute_trade self ticker action md ps an rs tf epp = Except.error e) :
    execute_trade_core self.fee_pct self.reference_date ticker action md ps
      an rs tf epp = Except.error e := by
  cases hc : execute_trade_core self.fee_pct self.reference_date ticker action md ps
      an rs tf epp with
  | error e0 =>
    rw [execute_trade_eq_of_core_err hc] at h
    injection h with h
    subst h
    rfl
  | ok v =>
    obtain ⟨r0, pos0, md0⟩ := v
    rw [execute_trade_eq_of_core_ok hc] at h
    cases h

/-! ### Inversion of a successful / failed core run -/

lemma core_ok_inv {fee : ℚ} {ref : Option Nat} {ticker action : String}
    {md : List Bar} {ps : ℚ} {an rs tf : String} {epp : ℚ}
    {r : TradeResult} {pos : TradePosition} {md' : List Bar}
    (hok : execute_trade_core fee ref ticker action md ps an rs tf epp =
      Except.ok (r, pos, md')) :
    ∃ et days entryBar xp xdt,
      ref = some et ∧ parseTimeframe tf = Except.ok days ∧
      findEntry (ensureDatetime md) et = some entryBar ∧
      md' = ensureDatetime md ∧
      r = buildResult fee ticker action ps an rs entryBar.close entryBar.dt
        (targetOf action entryBar.close epp) xp xdt := by
  cases ref with
  | none => rw [core_of_ref_none] at hok; cases hok
  | some et =>
    cases htf : parseTimeframe tf with
    | error e => rw [core_of_tf_error htf] at hok; cases hok
    | ok days =>
      cases hentry : findEntry (ensureDatetime md) et with
      | none => rw [core_of_entry_none htf hentry] at hok; cases hok
      | some entryBar =>
        cases hscan : dayGroupScan action (targetOf action entryBar.close epp)
            (tradeWindow (ensureDatetime md) entryBar.dt (et + days * 24)) with
        | some pr =>
          obtain ⟨xp, xdt⟩ := pr
          rw [core_of_scan_some htf hentry hscan] at hok
          simp only [Except.ok.injEq, Prod.mk.injEq] at hok
          obtain ⟨h1, _, h3⟩ := hok
          exact ⟨et, days, entryBar, xp, xdt, rfl, rfl, hentry, h3.symm, h1.symm⟩
        | none =>
          cases hexit : findTimeExit (ensureDatetime md) (et + days * 24) with
          | none => rw [core_of_no_exit htf hentry hscan hexit] at hok; cases hok
          | some exitBar =>
            rw [core_of_time_exit htf hentry hscan hexit] at hok
            simp only [Except.ok.injEq, Prod.mk.injEq] at hok
            obtain ⟨h1, _, h3⟩ := hok
            exact ⟨et, days, entryBar, exitBar.close, exitBar.dt, rfl, rfl, hentry,
              h3.symm, h1.symm⟩

lemma core_err_md {fee : ℚ} {ref : Option Nat} {ticker action : String}
    {md : List Bar} {ps : ℚ} {an rs tf : String} {epp : ℚ} {e : String × List Bar}
    (h : execute_trade_core fee ref ticker action md ps an rs tf epp =
      Except.error e) :
    e.2 = md ∨ e.2 = ensureDatetime md := by
  cases ref with
  | none =>
    rw [core_of_ref_none] at h
    injection h with h
    subst h
    left; rfl
  | some et =>
    cases htf : parseTimeframe tf with
    | error s =>
      rw [core_of_tf_error htf] at h
      injection h with h
      subst h
      left; rfl
    | ok days =>
      cases hentry : findEntry (ensureDatetime md) et with
      | none =>
        rw [core_of_entry_none htf hentry] at h
        injection h with h
        subst h
        right; rfl
      | some entryBar =>
        cases hscan : dayGroupScan action (targetOf action entryBar.close epp)
            (tradeWindow (ensureDatetime md) entryBar.dt (et + days * 24)) with
        | some pr =>
          obtain ⟨xp, xdt⟩ := pr
          rw [core_of_scan_some htf hentry hscan] at h
          cases h
        | none =>
          cases hexit : findTimeExit (ensureDatetime md) (et + days * 24) with
          | some exitBar =>
            rw [core_of_time_exit htf hentry hscan hexit] at h
            cases h
          | none =>
            rw [core_of_no_exit htf hentry hscan hexit] at h
            injection h with h
            subst h
            right; rfl

/-! ### The worked example of the spec (bars at hours 0..3) -/

lemma parseTimeframe_1d : parseTimeframe "1d" = Except.ok 1 := by decide

/-- The example series of the spec: closes `100, 101, 99, 98` at hours
`t0..t3`, highs equal to closes. -/
def specBar0 : Bar := ⟨.ts 0, 100, 100, 100, 100, 1⟩

def specBar1 : Bar := ⟨.ts 1, 101, 101, 100, 101, 1⟩

def specBar2 : Bar := ⟨.ts 2, 99, 99, 99, 99, 1⟩

def specBar3 : Bar := ⟨.ts 3, 98, 98, 98, 98, 1⟩

def specBars : List Bar := [specBar0, specBar1, specBar2, specBar3]

def specFramework : BacktestFramework := ⟨1/1000, some 0, [], []⟩

def specResult : TradeResult :=
  ⟨.ts 0, .ts 1, 100, 101, 10, "LONG", "TICK", 201/100, 799/100, 1, "a", "r",
    .target_hit⟩

def specPosition : TradePosition := ⟨.ts 0, 100, 10, "LONG", "TICK", "a", "r"⟩

def specFrameworkAfter : BacktestFramework :=
  ⟨1/1000, some 0, [specResult], [("TICK", specPosition)]⟩

/-- Evaluating the simulator on the spec's example scenario: entry `100`,
target `101` hit at hour 1, fees `2.01`, pnl `7.99`, pnl_pct `1`. -/
lemma spec_example_eval :
    execute_trade specFramework "TICK" "BUY" specBars 10 "a" "r" "1d" (1/100) =
      Except.ok (specResult, specFrameworkAfter, specBars) := by
  norm_num [execute_trade, execute_trade_core, parseTimeframe_1d, ensureDatetime,
    findEntry, tradeWindow, findTimeExit, dayGroupScan, scanDayList, sortDays,
    insertSorted, dayOf, qualifies, targetOf, buildResult, setPos, DtVal.hour,
    DtVal.isParsed, List.find?, List.filter, List.dedup, List.pwFilter, List.all,
    specFramework, specBars, specBar0, specBar1, specBar2, specBar3, specResult,
    specPosition, specFrameworkAfter]

/-! ### Claim C1 -/

/-- C1: For every decision and non-empty sorted series, if some bar in the
window `entry_time ≤ timestamp ≤ max_exit_time` satisfies the target
condition (for LONG a bar with `high ≥ target`, for SHORT a bar with
`low ≤ target`, boundary equality counting as a hit), then the simulation
exits in the first calendar day containing such a bar, with `exit_price`
equal to the target price exactly, `exit_time` equal to the
earliest-timestamp qualifying bar within that day, and `exit_reason`
TARGET_HIT; no later day is scanned.  (The exiting bar is the globally
earliest-timestamp qualifying bar of the window, so its calendar day is the
first day containing a qualifying bar and it is the earliest within it.) -/
theorem C1_target_hit_resolution (self : BacktestFramework)
    (ticker action : String) (market_data : List Bar) (position_size : ℚ)
    (agent_name reasoning expected_timeframe : String)
    (expected_profit_percentage : ℚ) (entry_time days : Nat) (entryBar : Bar)
    (href : self.reference_date = some entry_time)
    (htf : parseTimeframe expected_timeframe = Except.ok days)
    (hparsed : ∀ b ∈ market_data, b.dt.isParsed = true)
    (hsorted : market_data.Pairwise (fun a c => a.dt.hour ≤ c.dt.hour))
    (hentry : findEntry market_data entry_time = some entryBar)
    (hhit : ∃ b ∈ tradeWindow market_data entryBar.dt (entry_time + days * 24),
      qualifies action (targetOf action entryBar.close expected_profit_percentage)
        b = true) :
    ∃ r fw' md',
      execute_trade self ticker action market_data position_size agent_name
          reasoning expected_timeframe expected_profit_percentage =
        Except.ok (r, fw', md') ∧
      r.exit_price = targetOf action entryBar.close expected_profit_percentage ∧
      r.exit_reason = ExitReason.target_hit ∧
      ∃ b ∈ tradeWindow market_data entryBar.dt (entry_time + days * 24),
        qualifies action (targetOf action entryBar.close expected_profit_percentage)
          b = true ∧
        r.exit_time = b.dt ∧
        ∀ b' ∈ tradeWindow market_data entryBar.dt (entry_time + days * 24),
          qualifies action
              (targetOf action entryBar.close expected_profit_percentage) b' = true →
            b.dt.hour ≤ b'.dt.hour ∧ dayOf b ≤ dayOf b' := by
  have hmd : ensureDatetime market_data = market_data :=
    ensureDatetime_of_parsed hparsed
  obtain ⟨w, hw, hq⟩ := hhit
  have hsw : (tradeWindow market_data entryBar.dt
      (entry_time + days * 24)).Pairwise (fun a c => a.dt.hour ≤ c.dt.hour) :=
    List.Pairwise.sublist (List.filter_sublist _) hsorted
  obtain ⟨b, hfind⟩ := find?_exists hw hq
  have hscan := dayGroupScan_hit hsw hfind
  have hcore : execute_trade_core self.fee_pct (some entry_time) ticker action
      market_data position_size agent_name reasoning expected_timeframe
      expected_profit_percentage = _ :=
    core_of_scan_some htf (by rw [hmd]; exact hentry) (by rw [hmd]; exact hscan)
  rw [← href] at hcore
  refine ⟨_, _, _, execute_trade_eq_of_core_ok hcore, buildResult_exit_price, ?_, ?_⟩
  · rw [buildResult_exit_reason, if_pos rfl]
  · refine ⟨b, List.mem_of_find?_eq_some hfind, List.find?_some hfind,
      buildResult_exit_time, ?_⟩
    intro b' hb' hq'
    have h1 := find?_first_le hsw hfind hb' hq'
    exact ⟨h1, Nat.div_le_div_right h1⟩

/-- Witness for C1 on the spec's example scenario. -/
theorem C1_target_hit_resolution_witness :
    specFramework.reference_date = some 0 ∧
    parseTimeframe "1d" = Except.ok 1 ∧
    (∀ b ∈ specBars, b.dt.isParsed = true) ∧
    specBars.Pairwise (fun a c => a.dt.hour ≤ c.dt.hour) ∧
    findEntry specBars 0 = some specBar0 ∧
    (∃ b ∈ tradeWindow specBars specBar0.dt (0 + 1 * 24),
      qualifies "BUY" (targetOf "BUY" specBar0.close (1/100)) b = true) ∧
    (∃ r fw' md',
      execute_trade specFramework "TICK" "BUY" specBars 10 "a" "r" "1d" (1/100) =
        Except.ok (r, fw', md') ∧
      r.exit_price = targetOf "BUY" specBar0.close (1/100) ∧
      r.exit_reason = ExitReason.target_hit ∧
      ∃ b ∈ tradeWindow specBars specBar0.dt (0 + 1 * 24),
        qualifies "BUY" (targetOf "BUY" specBar0.close (1/100)) b = true ∧
        r.exit_time = b.dt ∧
        ∀ b' ∈ tradeWindow specBars specBar0.dt (0 + 1 * 24),
          qualifies "BUY" (targetOf "BUY" specBar0.close (1/100)) b' = true →
            b.dt.hour ≤ b'.dt.hour ∧ dayOf b ≤ dayOf b') := by
  have hhit : ∃ b ∈ tradeWindow specBars specBar0.dt (0 + 1 * 24),
      qualifies "BUY" (targetOf "BUY" specBar0.close (1/100)) b = true := by
    refine ⟨specBar1, by decide, ?_⟩
    norm_num [qualifies, targetOf, specBar0, specBar1]
  exact ⟨rfl, parseTimeframe_1d, by decide, by decide, by decide, hhit,
    C1_target_hit_resolution specFramework "TICK" "BUY" specBars 10 "a" "r" "1d"
      (1/100) 0 1 specBar0 rfl parseTimeframe_1d (by decide) (by decide)
      (by decide) hhit⟩

/-! ### Claim C2 -/

/-- C2 (amended): For every decision and series, if no bar in the holding
window satisfies the target condition, the simulation exits at the first bar
with `timestamp ≥ max_exit_time` using that bar's close as `exit_price`, and
its `exit_reason` is TIME_LIMIT provided that close differs from the target
price (when the close happens to equal the target exactly, the code's
`exit_price == target_price` test labels the exit TARGET_HIT instead); it
fails with DataUnavailable if and only if no such bar exists. -/
theorem C2_time_limit_exit (self : BacktestFramework)
    (ticker action : String) (market_data : List Bar) (position_size : ℚ)
    (agent_name reasoning expected_timeframe : String)
    (expected_profit_percentage : ℚ) (entry_time days : Nat) (entryBar : Bar)
    (href : self.reference_date = some entry_time)
    (htf : parseTimeframe expected_timeframe = Except.ok days)
    (hparsed : ∀ b ∈ market_data, b.dt.isParsed = true)
    (hentry : findEntry market_data entry_time = some entryBar)
    (hnohit : ∀ b ∈ tradeWindow market_data entryBar.dt (entry_time + days * 24),
      qualifies action (targetOf action entryBar.close expected_profit_percentage)
        b = false) :
    (∀ exitBar, findTimeExit market_data (entry_time + days * 24) = some exitBar →
      ∃ r fw' md',
        execute_trade self ticker action market_data position_size agent_name
            reasoning expected_timeframe expected_profit_percentage =
          Except.ok (r, fw', md') ∧
        r.exit_price = exitBar.close ∧ r.exit_time = exitBar.dt ∧
        (exitBar.close ≠ targetOf action entryBar.close expected_profit_percentage →
          r.exit_reason = ExitReason.time_limit)) ∧
    (findTimeExit market_data (entry_time + days * 24) = none →
      execute_trade self ticker action market_data position_size agent_name
          reasoning expected_timeframe expected_profit_percentage =
        Except.error ("No data available at or after exit time", market_data)) := by
  have hmd : ensureDatetime market_data = market_data :=
    ensureDatetime_of_parsed hparsed
  have hscan := dayGroupScan_none hnohit
  constructor
  · intro exitBar hexit
    have hcore : execute_trade_core self.fee_pct (some entry_time) ticker action
        market_data position_size agent_name reasoning expected_timeframe
        expected_profit_percentage = _ :=
      core_of_time_exit htf (by rw [hmd]; exact hentry) (by rw [hmd]; exact hscan)
        (by rw [hmd]; exact hexit)
    rw [← href] at hcore
    refine ⟨_, _, _, execute_trade_eq_of_core_ok hcore, buildResult_exit_price,
      buildResult_exit_time, ?_⟩
    intro hne
    rw [buildResult_exit_reason, if_neg hne]
  · intro hexitn
    have hcore : execute_trade_core self.fee_pct (some entry_time) ticker action
        market_data position_size agent_name reasoning expected_timeframe
        expected_profit_percentage = _ :=
      core_of_no_exit htf (by rw [hmd]; exact hentry) (by rw [hmd]; exact hscan)
        (by rw [hmd]; exact hexitn)
    rw [← href] at hcore
    have h := execute_trade_eq_of_core_err hcore
    rw [hmd] at h
    exact h

def c2Bar0 : Bar := ⟨.ts 0, 100, 100, 100, 100, 1⟩

def c2Bar1 : Bar := ⟨.ts 25, 90, 90, 90, 90, 1⟩

/-- Witness for C2 (amended): target 101 never reached in the window, exit at
the first bar past the one-day horizon with its close 90. -/
theorem C2_time_limit_exit_witness :
    specFramework.reference_date = some 0 ∧
    parseTimeframe "1d" = Except.ok 1 ∧
    (∀ b ∈ [c2Bar0, c2Bar1], b.dt.isParsed = true) ∧
    findEntry [c2Bar0, c2Bar1] 0 = some c2Bar0 ∧
    (∀ b ∈ tradeWindow [c2Bar0, c2Bar1] c2Bar0.dt (0 + 1 * 24),
      qualifies "BUY" (targetOf "BUY" c2Bar0.close (1/100)) b = false) ∧
    (∀ exitBar, findTimeExit [c2Bar0, c2Bar1] (0 + 1 * 24) = some exitBar →
      ∃ r fw' md',
        execute_trade specFramework "TICK" "BUY" [c2Bar0, c2Bar1] 10 "a" "r"
            "1d" (1/100) =
          Except.ok (r, fw', md') ∧
        r.exit_price = exitBar.close ∧ r.exit_time = exitBar.dt ∧
        (exitBar.close ≠ targetOf "BUY" c2Bar0.close (1/100) →
          r.exit_reason = ExitReason.time_limit)) := by
  have hnohit : ∀ b ∈ tradeWindow [c2Bar0, c2Bar1] c2Bar0.dt (0 + 1 * 24),
      qualifies "BUY" (targetOf "BUY" c2Bar0.close (1/100)) b = false := by
    have hw : tradeWindow [c2Bar0, c2Bar1] c2Bar0.dt (0 + 1 * 24) = [c2Bar0] := by
      decide
    intro b hb
    rw [hw, List.mem_singleton] at hb
    subst hb
    norm_num [qualifies, targetOf, c2Bar0]
  exact ⟨rfl, parseTimeframe_1d, by decide, by decide, hnohit,
    (C2_time_limit_exit specFramework "TICK" "BUY" [c2Bar0, c2Bar1] 10 "a" "r"
      "1d" (1/100) 0 1 c2Bar0 rfl parseTimeframe_1d (by decide) (by decide)
      hnohit).1⟩

def c2xBar0 : Bar := ⟨.ts 0, 100, 100, 100, 100, 1⟩

def c2xBar1 : Bar := ⟨.ts 25, 101, 101, 101, 101, 1⟩

def c2xResult : TradeResult :=
  ⟨.ts 0, .ts 25, 100, 101, 10, "LONG", "TICK", 201/100, 799/100, 1, "a", "r",
    .target_hit⟩

/-- Counterexample to C2 as stated: no bar of the holding window reaches the
target 101, the trade exits on time at the first bar past the horizon, yet
because that bar's close equals the target exactly the recorded exit reason
is the TARGET_HIT one, not TIME_LIMIT. -/
theorem C2_counterexample :
    (∀ b ∈ tradeWindow [c2xBar0, c2xBar1] c2xBar0.dt (0 + 1 * 24),
      qualifies "BUY" (targetOf "BUY" c2xBar0.close (1/100)) b = false) ∧
    findTimeExit [c2xBar0, c2xBar1] (0 + 1 * 24) = some c2xBar1 ∧
    execute_trade specFramework "TICK" "BUY" [c2xBar0, c2xBar1] 10 "a" "r" "1d"
        (1/100) =
      Except.ok (c2xResult,
        ⟨1/1000, some 0, [c2xResult], [("TICK", ⟨.ts 0, 100, 10, "LONG", "TICK", "a", "r"⟩)]⟩,
        [c2xBar0, c2xBar1]) ∧
    c2xResult.exit_price = c2xBar1.close ∧
    c2xResult.exit_time = c2xBar1.dt ∧
    c2xResult.exit_reason = ExitReason.target_hit ∧
    c2xResult.exit_reason ≠ ExitReason.time_limit := by
  refine ⟨?_, by decide, ?_, rfl, rfl, rfl, by decide⟩
  · have hw : tradeWindow [c2xBar0, c2xBar1] c2xBar0.dt (0 + 1 * 24) = [c2xBar0] := by
      decide
    intro b hb
    rw [hw, List.mem_singleton] at hb
    subst hb
    norm_num [qualifies, targetOf, c2xBar0]
  · norm_num [execute_trade, execute_trade_core, parseTimeframe_1d, ensureDatetime,
      findEntry, tradeWindow, findTimeExit, dayGroupScan, scanDayList, sortDays,
      insertSorted, dayOf, qualifies, targetOf, buildResult, setPos, DtVal.hour,
      DtVal.isParsed, List.find?, List.filter, List.dedup, List.pwFilter, List.all,
      specFramework, c2xBar0, c2xBar1, c2xResult]

/-! ### Claim C3 -/

/-- C3: For every decision, the entry bar is the first bar of the series with
`timestamp ≥ reference_time`, `entry_price` is that bar's close and
`entry_time` that bar's timestamp; if no such bar exists the simulation fails
with DataUnavailable. -/
theorem C3_entry_resolution (self : BacktestFramework)
    (ticker action : String) (market_data : List Bar) (position_size : ℚ)
    (agent_name reasoning expected_timeframe : String)
    (expected_profit_percentage : ℚ) (entry_time days : Nat)
    (href : self.reference_date = some entry_time)
    (htf : parseTimeframe expected_timeframe = Except.ok days)
    (hparsed : ∀ b ∈ market_data, b.dt.isParsed = true) :
    ((∀ b ∈ market_data, ¬ entry_time ≤ b.dt.hour) →
      execute_trade self ticker action market_data position_size agent_name
          reasoning expected_timeframe expected_profit_percentage =
        Except.error ("No data available at or after entry time", market_data)) ∧
    (∀ entryBar, findEntry market_data entry_time = some entryBar →
      ∀ r fw' md',
        execute_trade self ticker action market_data position_size agent_name
            reasoning expected_timeframe expected_profit_percentage =
          Except.ok (r, fw', md') →
        r.entry_price = entryBar.close ∧ r.entry_time = entryBar.dt) := by
  have hmd : ensureDatetime market_data = market_data :=
    ensureDatetime_of_parsed hparsed
  constructor
  · intro hnone
    have hfe : findEntry market_data entry_time = none := by
      rw [findEntry, List.find?_eq_none]
      intro b hb
      simpa using hnone b hb
    have hcore : execute_trade_core self.fee_pct (some entry_time) ticker action
        market_data position_size agent_name reasoning expected_timeframe
        expected_profit_percentage = _ :=
      core_of_entry_none htf (by rw [hmd]; exact hfe)
    rw [← href] at hcore
    have h := execute_trade_eq_of_core_err hcore
    rw [hmd] at h
    exact h
  · intro entryBar hfe r fw' md' hok
    obtain ⟨pos, hcore, _⟩ := execute_trade_ok_core hok
    obtain ⟨et2, days2, eb2, xp, xdt, href2, htf2, hentry2, hmd2, hr⟩ :=
      core_ok_inv hcore
    rw [href] at href2
    injection href2 with hEt
    subst hEt
    rw [hmd, hfe] at hentry2
    injection hentry2 with hEb
    subst hEb
    subst hr
    exact ⟨buildResult_entry_price, buildResult_entry_time⟩

/-- Witness for C3 on the spec's example scenario. -/
theorem C3_entry_resolution_witness :
    specFramework.reference_date = some 0 ∧
    parseTimeframe "1d" = Except.ok 1 ∧
    (∀ b ∈ specBars, b.dt.isParsed = true) ∧
    (∀ entryBar, findEntry specBars 0 = some entryBar →
      ∀ r fw' md',
        execute_trade specFramework "TICK" "BUY" specBars 10 "a" "r" "1d"
            (1/100) =
          Except.ok (r, fw', md') →
        r.entry_price = entryBar.close ∧ r.entry_time = entryBar.dt) := by
  exact ⟨rfl, parseTimeframe_1d, by decide,
    (C3_entry_resolution specFramework "TICK" "BUY" specBars 10 "a" "r" "1d"
      (1/100) 0 1 rfl parseTimeframe_1d (by decide)).2⟩

/-! ### Claim C4 -/

/-- C4: For every successfully simulated trade, the returned `pnl` and
`pnl_pct` satisfy exactly: for LONG,
`pnl = (exit_price − entry_price) × position_size − (entry_fee + exit_fee)`
and `pnl_pct = (exit_price/entry_price − 1) × 100`; for SHORT,
`pnl = (entry_price − exit_price) × position_size − fees` and
`pnl_pct = (1 − exit_price/entry_price) × 100`.  (The percentage identities
require a nonzero entry price; the code divides by `entry_price`.) -/
theorem C4_pnl_formulas (self : BacktestFramework)
    (ticker action : String) (market_data : List Bar) (position_size : ℚ)
    (agent_name reasoning expected_timeframe : String)
    (expected_profit_percentage : ℚ) (r : TradeResult)
    (fw' : BacktestFramework) (md' : List Bar)
    (hok : execute_trade self ticker action market_data position_size agent_name
        reasoning expected_timeframe expected_profit_percentage =
      Except.ok (r, fw', md')) :
    (r.direction = "LONG" →
      r.pnl = (r.exit_price - r.entry_price) * r.position_size -
        (r.entry_price * r.position_size * self.fee_pct +
          r.exit_price * r.position_size * self.fee_pct) ∧
      (r.entry_price ≠ 0 →
        r.pnl_pct = (r.exit_price / r.entry_price - 1) * 100)) ∧
    (r.direction = "SHORT" →
      r.pnl = (r.entry_price - r.exit_price) * r.position_size -
        (r.entry_price * r.position_size * self.fee_pct +
          r.exit_price * r.position_size * self.fee_pct) ∧
      (r.entry_price ≠ 0 →
        r.pnl_pct = (1 - r.exit_price / r.entry_price) * 100)) := by
  obtain ⟨pos, hcore, _⟩ := execute_trade_ok_core hok
  obtain ⟨et, days, eb, xp, xdt, _, _, _, _, hr⟩ := core_ok_inv hcore
  subst hr
  by_cases ha : action = "BUY"
  · constructor
    · intro _
      constructor
      · rw [buildResult_pnl, buildResult_exit_price, buildResult_entry_price,
          buildResult_position_size, if_pos ha]
        ring
      · intro hne
        rw [buildResult_entry_price] at hne
        rw [buildResult_pnl_pct, buildResult_exit_price, buildResult_entry_price,
          if_pos ha, sub_div, div_self hne]
    · intro hdir
      rw [buildResult_direction, if_pos ha] at hdir
      exact absurd hdir (by decide)
  · constructor
    · intro hdir
      rw [buildResult_direction, if_neg ha] at hdir
      exact absurd hdir (by decide)
    · intro _
      constructor
      · rw [buildResult_pnl, buildResult_exit_price, buildResult_entry_price,
          buildResult_position_size, if_neg ha]
        ring
      · intro hne
        rw [buildResult_entry_price] at hne
        rw [buildResult_pnl_pct, buildResult_exit_price, buildResult_entry_price,
          if_neg ha, sub_div, div_self hne]

/-- Witness for C4 on the spec's example scenario. -/
theorem C4_pnl_formulas_witness :
    execute_trade specFramework "TICK" "BUY" specBars 10 "a" "r" "1d" (1/100) =
      Except.ok (specResult, specFrameworkAfter, specBars) ∧
    ((specResult.direction = "LONG" →
      specResult.pnl = (specResult.exit_price - specResult.entry_price) *
          specResult.position_size -
        (specResult.entry_price * specResult.position_size * specFramework.fee_pct +
          specResult.exit_price * specResult.position_size * specFramework.fee_pct) ∧
      (specResult.entry_price ≠ 0 →
        specResult.pnl_pct =
          (specResult.exit_price / specResult.entry_price - 1) * 100)) ∧
    (specResult.direction = "SHORT" →
      specResult.pnl = (specResult.entry_price - specResult.exit_price) *
          specResult.position_size -
        (specResult.entry_price * specResult.position_size * specFramework.fee_pct +
          specResult.exit_price * specResult.position_size * specFramework.fee_pct) ∧
      (specResult.entry_price ≠ 0 →
        specResult.pnl_pct =
          (1 - specResult.exit_price / specResult.entry_price) * 100))) :=
  ⟨spec_example_eval,
    C4_pnl_formulas specFramework "TICK" "BUY" specBars 10 "a" "r" "1d" (1/100)
      specResult specFrameworkAfter specBars spec_example_eval⟩

/-! ### Claim C5 -/

/-- C5: For every successfully simulated trade, in both directions, the
`fees` field of the TradeResult equals
`fee_fraction × (entry_price + exit_price) × position_size` exactly. -/
theorem C5_fee_symmetry (self : BacktestFramework)
    (ticker action : String) (market_data : List Bar) (position_size : ℚ)
    (agent_name reasoning expected_timeframe : String)
    (expected_profit_percentage : ℚ) (r : TradeResult)
    (fw' : BacktestFramework) (md' : List Bar)
    (hok : execute_trade self ticker action market_data position_size agent_name
        reasoning expected_timeframe expected_profit_percentage =
      Except.ok (r, fw', md')) :
    r.fees = self.fee_pct * (r.entry_price + r.exit_price) * r.position_size := by
  obtain ⟨pos, hcore, _⟩ := execute_trade_ok_core hok
  obtain ⟨et, days, eb, xp, xdt, _, _, _, _, hr⟩ := core_ok_inv hcore
  subst hr
  rw [buildResult_fees, buildResult_entry_price, buildResult_exit_price,
    buildResult_position_size]
  ring

/-- Witness for C5 on the spec's example scenario. -/
theorem C5_fee_symmetry_witness :
    execute_trade specFramework "TICK" "BUY" specBars 10 "a" "r" "1d" (1/100) =
      Except.ok (specResult, specFrameworkAfter, specBars) ∧
    specResult.fees =
      specFramework.fee_pct * (specResult.entry_price + specResult.exit_price) *
        specResult.position_size :=
  ⟨spec_example_eval,
    C5_fee_symmetry specFramework "TICK" "BUY" specBars 10 "a" "r" "1d" (1/100)
      specResult specFrameworkAfter specBars spec_example_eval⟩

/-! ### Claim C9 -/

def c9Bar : Bar := ⟨.ts 0, 100, 200, 90, 100, 1⟩

def c9Result : TradeResult :=
  ⟨.ts 0, .ts 0, 100, 101, 10, "LONG", "TICK", 201/100, 799/100, 1, "a", "r",
    .target_hit⟩

/-- C9: There exists a decision and series for which the entry bar itself
satisfies the target condition (here the entry bar's high 200 ≥ target 101
for LONG) and the simulator returns a TradeResult with `exit_time` equal to
`entry_time` — a zero-duration trade — rather than rejecting it. -/
theorem C9_zero_duration_allowed :
    ∃ (self : BacktestFramework) (ticker action : String)
      (market_data : List Bar) (position_size : ℚ)
      (agent_name reasoning expected_timeframe : String)
      (expected_profit_percentage : ℚ) (r : TradeResult)
      (fw' : BacktestFramework) (md' : List Bar) (entryBar : Bar),
      findEntry market_data (0 : Nat) = some entryBar ∧
      qualifies action (targetOf action entryBar.close expected_profit_percentage)
        entryBar = true ∧
      execute_trade self ticker action market_data position_size agent_name
          reasoning expected_timeframe expected_profit_percentage =
        Except.ok (r, fw', md') ∧
      r.entry_time = entryBar.dt ∧
      r.exit_time = r.entry_time ∧
      r.exit_reason = ExitReason.target_hit := by
  refine ⟨⟨1/1000, some 0, [], []⟩, "TICK", "BUY", [c9Bar], 10, "a", "r", "1d",
    1/100, c9Result, ⟨1/1000, some 0, [c9Result],
      [("TICK", ⟨.ts 0, 100, 10, "LONG", "TICK", "a", "r"⟩)]⟩, [c9Bar], c9Bar,
    by decide, ?_, ?_, rfl, rfl, rfl⟩
  · norm_num [qualifies, targetOf, c9Bar]
  · norm_num [execute_trade, execute_trade_core, parseTimeframe_1d, ensureDatetime,
      findEntry, tradeWindow, findTimeExit, dayGroupScan, scanDayList, sortDays,
      insertSorted, dayOf, qualifies, targetOf, buildResult, setPos, DtVal.hour,
      DtVal.isParsed, List.find?, List.filter, List.dedup, List.pwFilter, List.all,
      c9Bar, c9Result]

/-! ### The batch orchestrator (`run_backtest`, lines 244-341) -/

/-- The metrics dictionary of lines 256-263. -/
structure Metrics where
  total_trades : Nat
  win_rate : ℚ
  avg_return : ℚ
  max_loss : ℚ
  max_gain : ℚ
deriving DecidableEq

/-- Python `round(x, 2)` (the claims below never depend on the tie-breaking
rule of binary floats, so ordinary rounding on ℚ is used). -/
def round2 (q : ℚ) : ℚ := (round (q * 100) : ℤ) / 100

/-- Python `min` over a nonempty list (`0` is never used: callers guard
against the empty list first). -/
def listMin : List ℚ → ℚ
  | [] => 0
  | x :: xs => xs.foldl min x

/-- Python `max` over a nonempty list. -/
def listMax : List ℚ → ℚ
  | [] => 0
  | x :: xs => xs.foldl max x

/-- Lines 315-320, `_calculate_win_rate`. -/
def calculate_win_rate (trades : List TradeResult) : ℚ :=
  if trades = [] then 0
  else
    round2 ((((trades.filter (fun t => decide (0 < t.pnl))).length : ℚ) /
      (trades.length : ℚ)) * 100)

/-- Lines 322-327, `_calculate_avg_return`. -/
def calculate_avg_return (trades : List TradeResult) : ℚ :=
  if trades = [] then 0
  else round2 ((trades.map (fun t => t.pnl_pct)).sum / (trades.length : ℚ))

/-- Lines 329-334, `_calculate_max_loss`. -/
def calculate_max_loss (trades : List TradeResult) : ℚ :=
  if trades = [] then 0
  else round2 (listMin (trades.map (fun t => t.pnl_pct)))

/-- Lines 336-341, `_calculate_max_gain`. -/
def calculate_max_gain (trades : List TradeResult) : ℚ :=
  if trades = [] then 0
  else round2 (listMax (trades.map (fun t => t.pnl_pct)))

/-- One agent-response dictionary: every key may be absent.  `amount` and
`expected_profit_percentage` stand for the values after `float(...)`. -/
structure AgentResponse where
  ticker : Option String
  action : Option String
  amount : Option ℚ
  expected_timeframe : Option String
  persona : Option String
  reasoning : Option String
  expected_profit_percentage : Option ℚ
deriving DecidableEq

/-- In-place update of the DataFrame object stored under a key of the
`market_data` dict: the dict's keys are untouched, every entry holding that
object now shows the converted frame. -/
def setAssoc (m : List (String × List Bar)) (k : String) (v : List Bar) :
    List (String × List Bar) :=
  m.map (fun p => if p.1 = k then (k, v) else p)

/-- Lines 266-301, the response loop of `run_backtest`: missing required
fields, an unknown ticker and an empty frame are skipped (`continue`); the
`try` block turns any exception from `execute_trade` (and the `KeyError` of a
missing `expected_profit_percentage`) into a logged skip. -/
def processResponses (self : BacktestFramework)
    (market_data : List (String × List Bar)) :
    List AgentResponse → BacktestFramework × List (String × List Bar)
  | [] => (self, market_data)
  | response :: rest =>
    match response.ticker, response.action, response.amount,
        response.expected_timeframe with
    | some ticker, some action, some amount, some tf =>
      (match market_data.lookup ticker with
       | none => processResponses self market_data rest
       | some df =>
         if df.isEmpty then processResponses self market_data rest
         else
           match response.expected_profit_percentage with
           | none => processResponses self market_data rest
           | some epp =>
             match execute_trade self ticker action df amount
                 (response.persona.getD "unknown") (response.reasoning.getD "")
                 tf epp with
             | Except.error e =>
               processResponses self (setAssoc market_data ticker e.2) rest
             | Except.ok (_, self2, df2) =>
               processResponses self2 (setAssoc market_data ticker df2) rest)
    | _, _, _, _ => processResponses self market_data rest

/-- Lines 244-313, `BacktestFramework.run_backtest`: reset the state, process
every response, then fill the metrics dictionary (only when at least one
trade was recorded).  Returns the `(metrics, trades)` pair of the source plus
the final framework state and market-data dict. -/
def run_backtest (self : BacktestFramework)
    (market_data : List (String × List Bar))
    (agent_responses : List AgentResponse) :
    (Metrics × List TradeResult) × BacktestFramework × List (String × List Bar) :=
  let self0 : BacktestFramework :=
    { self with trades := [], current_positions := [] }
  let out := processResponses self0 market_data agent_responses
  let metrics0 : Metrics :=
    { total_trades := agent_responses.length, win_rate := 0, avg_return := 0,
      max_loss := 0, max_gain := 0 }
  let metrics : Metrics :=
    if out.1.trades = [] then metrics0
    else
      { metrics0 with
        win_rate := calculate_win_rate out.1.trades,
        avg_return := calculate_avg_return out.1.trades,
        max_loss := calculate_max_loss out.1.trades,
        max_gain := calculate_max_gain out.1.trades }
  ((metrics, out.1.trades), out.1, out.2)

/-- The outcome the loop body of lines 266-301 produces for one response,
as a function of the data that determine it: `none` when the response is
skipped (validation failure or caught exception), `some result` when a trade
is recorded. -/
def simOutcome (fee_pct : ℚ) (reference_date : Option Nat)
    (market_data : List (String × List Bar)) (response : AgentResponse) :
    Option TradeResult :=
  match response.ticker, response.action, response.amount,
      response.expected_timeframe with
  | some ticker, some action, some amount, some tf =>
    (match market_data.lookup ticker with
     | none => none
     | some df =>
       if df.isEmpty then none
       else
         match response.expected_profit_percentage with
         | none => none
         | some epp =>
           match execute_trade_core fee_pct reference_date ticker action df
               amount (response.persona.getD "unknown")
               (response.reasoning.getD "") tf epp with
           | Except.error _ => none
           | Except.ok (result, _, _) => some result)
  | _, _, _, _ => none

/-! ### Dictionary lemmas for the batch loop -/

lemma lookup_mem {m : List (String × List Bar)} {k : String} {v : List Bar}
    (h : m.lookup k = some v) : (k, v) ∈ m := by
  induction m with
  | nil => simp [List.lookup] at h
  | cons p t ih =>
    obtain ⟨k0, v0⟩ := p
    by_cases hk : k = k0
    · have hb : (k == k0) = true := beq_iff_eq.mpr hk
      rw [List.lookup, hb] at h
      dsimp only at h
      injection h with h
      subst h
      subst hk
      exact List.mem_cons_self _ _
    · have hb : (k == k0) = false := by simpa using hk
      rw [List.lookup, hb] at h
      dsimp only at h
      exact List.mem_cons_of_mem _ (ih h)

lemma setAssoc_not_mem {m : List (String × List Bar)} {k : String} {v : List Bar}
    (h : k ∉ m.map Prod.fst) : setAssoc m k v = m := by
  induction m with
  | nil => rfl
  | cons p t ih =>
    obtain ⟨k0, v0⟩ := p
    simp only [List.map_cons, List.mem_cons, not_or] at h
    simp only [setAssoc, List.map_cons, if_neg (fun hh : k0 = k => h.1 hh.symm)]
    have := ih h.2
    rw [setAssoc] at this
    rw [this]

lemma setAssoc_self {m : List (String × List Bar)} {k : String} {v : List Bar}
    (hnd : (m.map Prod.fst).Nodup) (h : m.lookup k = some v) :
    setAssoc m k v = m := by
  induction m with
  | nil => rfl
  | cons p t ih =>
    obtain ⟨k0, v0⟩ := p
    rw [List.map_cons] at hnd
    rcases List.pairwise_cons.mp hnd with ⟨hk0, hndt⟩
    by_cases hk : k = k0
    · have hb : (k == k0) = true := beq_iff_eq.mpr hk
      rw [List.lookup, hb] at h
      dsimp only at h
      injection h with h
      subst h
      simp only [setAssoc, List.map_cons]
      rw [if_pos (by simpa using hk.symm), hk]
      have hnm : (k0 : String) ∉ t.map Prod.fst := fun hmem => hk0 k0 hmem rfl
      have hrest := setAssoc_not_mem (m := t) (k := k0) (v := v0) hnm
      rw [setAssoc] at hrest
      rw [hrest]
    · have hb : (k == k0) = false := by simpa using hk
      rw [List.lookup, hb] at h
      dsimp only at h
      simp only [setAssoc, List.map_cons]
      rw [if_neg (fun hh => hk hh.symm)]
      have hrest := ih hndt h
      rw [setAssoc] at hrest
      rw [hrest]

/-! ### The response loop in terms of per-decision outcomes -/

lemma processResponses_spec (market_data : List (String × List Bar))
    (hparsed : ∀ p ∈ market_data, ∀ b ∈ p.2, b.dt.isParsed = true)
    (hnd : (market_data.map Prod.fst).Nodup) :
    ∀ (rs : List AgentResponse) (self : BacktestFramework),
      (processResponses self market_data rs).1.trades =
        self.trades ++ rs.filterMap
          (simOutcome self.fee_pct self.reference_date market_data) ∧
      (processResponses self market_data rs).2 = market_data := by
  intro rs
  induction rs with
  | nil => intro self; exact ⟨by simp [processResponses], rfl⟩
  | cons r rest ih =>
    intro self
    cases hT : r.ticker with
    | none =>
      have h1 : processResponses self market_data (r :: rest) =
          processResponses self market_data rest := by
        simp only [processResponses, hT]
      have h2 : simOutcome self.fee_pct self.reference_date market_data r = none := by
        simp only [simOutcome, hT]
      rw [h1, List.filterMap_cons_none h2]
      exact ih self
    | some ticker =>
    cases hA : r.action with
    | none =>
      have h1 : processResponses self market_data (r :: rest) =
          processResponses self market_data rest := by
        simp only [processResponses, hT, hA]
      have h2 : simOutcome self.fee_pct self.reference_date market_data r = none := by
        simp only [simOutcome, hT, hA]
      rw [h1, List.filterMap_cons_none h2]
      exact ih self
    | some action =>
    cases hM : r.amount with
    | none =>
      have h1 : processResponses self market_data (r :: rest) =
          processResponses self market_data rest := by
        simp only [processResponses, hT, hA, hM]
      have h2 : simOutcome self.fee_pct self.reference_date market_data r = none := by
        simp only [simOutcome, hT, hA, hM]
      rw [h1, List.filterMap_cons_none h2]
      exact ih self
    | some amount =>
    cases hTf : r.expected_timeframe with
    | none =>
      have h1 : processResponses self market_data (r :: rest) =
          processResponses self market_data rest := by
        simp only [processResponses, hT, hA, hM, hTf]
      have h2 : simOutcome self.fee_pct self.reference_date market_data r = none := by
        simp only [simOutcome, hT, hA, hM, hTf]
      rw [h1, List.filterMap_cons_none h2]
      exact ih self
    | some tf =>
    cases hlk : market_data.lookup ticker with
    | none =>
      have h1 : processResponses self market_data (r :: rest) =
          processResponses self market_data rest := by
        simp only [processResponses, hT, hA, hM, hTf, hlk]
      have h2 : simOutcome self.fee_pct self.reference_date market_data r = none := by
        simp only [simOutcome, hT, hA, hM, hTf, hlk]
      rw [h1, List.filterMap_cons_none h2]
      exact ih self
    | some df =>
    have hdfp : ∀ b ∈ df, b.dt.isParsed = true :=
      fun b hb => hparsed _ (lookup_mem hlk) b hb
    have hdfmd : ensureDatetime df = df := ensureDatetime_of_parsed hdfp
    cases hdf : df.isEmpty with
    | true =>
      have h1 : processResponses self market_data (r :: rest) =
          processResponses self market_data rest := by
        simp only [processResponses, hT, hA, hM, hTf, hlk, hdf, if_true]
      have h2 : simOutcome self.fee_pct self.reference_date market_data r = none := by
        simp only [simOutcome, hT, hA, hM, hTf, hlk, hdf, if_true]
      rw [h1, List.filterMap_cons_none h2]
      exact ih self
    | false =>
    cases hepp : r.expected_profit_percentage with
    | none =>
      have h1 : processResponses self market_data (r :: rest) =
          processResponses self market_data rest := by
        simp only [processResponses, hT, hA, hM, hTf, hlk, hdf, hepp,
          Bool.false_eq_true, if_false]
      have h2 : simOutcome self.fee_pct self.reference_date market_data r = none := by
        simp only [simOutcome, hT, hA, hM, hTf, hlk, hdf, hepp,
          Bool.false_eq_true, if_false]
      rw [h1, List.filterMap_cons_none h2]
      exact ih self
    | some epp =>
    cases hex : execute_trade self ticker action df amount
        (r.persona.getD "unknown") (r.reasoning.getD "") tf epp with
    | error e =>
      have hce := execute_trade_err_core hex
      have he2 : e.2 = df := by
        rcases core_err_md hce with h | h
        · exact h
        · rw [h, hdfmd]
      have h1 : processResponses self market_data (r :: rest) =
          processResponses self (setAssoc market_data ticker e.2) rest := by
        simp only [processResponses, hT, hA, hM, hTf, hlk, hdf, hepp, hex,
          Bool.false_eq_true, if_false]
      rw [he2, setAssoc_self hnd hlk] at h1
      have h2 : simOutcome self.fee_pct self.reference_date market_data r = none := by
        simp only [simOutcome, hT, hA, hM, hTf, hlk, hdf, hepp, hce,
          Bool.false_eq_true, if_false]
      rw [h1, List.filterMap_cons_none h2]
      exact ih self
    | ok v =>
      obtain ⟨res, self2, df2⟩ := v
      obtain ⟨pos, hce, hfw⟩ := execute_trade_ok_core hex
      have hdf2 : df2 = df := by
        obtain ⟨_, _, _, _, _, _, _, _, hmd2, _⟩ := core_ok_inv hce
        rw [hmd2, hdfmd]
      have h1 : processResponses self market_data (r :: rest) =
          processResponses self2 (setAssoc market_data ticker df2) rest := by
        simp only [processResponses, hT, hA, hM, hTf, hlk, hdf, hepp, hex,
          Bool.false_eq_true, if_false]
      rw [hdf2, setAssoc_self hnd hlk] at h1
      have h2 : simOutcome self.fee_pct self.reference_date market_data r =
          some res := by
        simp only [simOutcome, hT, hA, hM, hTf, hlk, hdf, hepp, hce,
          Bool.false_eq_true, if_false]
      subst hfw
      rw [h1, List.filterMap_cons_some h2]
      refine ⟨?_, (ih _).2⟩
      rw [(ih _).1]
      simp [List.append_assoc]

/-! ### Claim C6 -/

/-- C6: For every batch of decisions, when any single decision fails
validation or simulation, the run records the failure and continues with the
remaining decisions — a failing decision never aborts the batch — and the
sequence of produced trades preserves the input order of the decisions that
succeeded: the trade list returned by `run_backtest` is exactly the in-order
`filterMap` of each decision's own outcome (`none` for a skipped decision,
`some result` for a simulated one). -/
theorem C6_batch_isolation_and_order (self : BacktestFramework)
    (market_data : List (String × List Bar)) (agent_responses : List AgentResponse)
    (hparsed : ∀ p ∈ market_data, ∀ b ∈ p.2, b.dt.isParsed = true)
    (hnd : (market_data.map Prod.fst).Nodup) :
    (run_backtest self market_data agent_responses).1.2 =
      agent_responses.filterMap
        (simOutcome self.fee_pct self.reference_date market_data) := by
  have h := (processResponses_spec market_data hparsed hnd agent_responses
    { self with trades := [], current_positions := [] }).1
  unfold run_backtest
  dsimp only
  rw [h]
  simp

def c6GoodResponse : AgentResponse :=
  ⟨some "TICK", some "BUY", some 10, some "1d", some "a", some "r", some (1/100)⟩

def c6BadResponse : AgentResponse :=
  ⟨none, none, none, none, none, none, none⟩

/-- Witness for C6: a two-element batch over the spec's example series, the
second decision invalid. -/
theorem C6_batch_isolation_and_order_witness :
    (∀ p ∈ [("TICK", specBars)], ∀ b ∈ p.2, b.dt.isParsed = true) ∧
    (([("TICK", specBars)].map Prod.fst).Nodup) ∧
    (run_backtest specFramework [("TICK", specBars)]
        [c6GoodResponse, c6BadResponse]).1.2 =
      [c6GoodResponse, c6BadResponse].filterMap
        (simOutcome specFramework.fee_pct specFramework.reference_date
          [("TICK", specBars)]) :=
  ⟨by decide, by decide,
    C6_batch_isolation_and_order specFramework [("TICK", specBars)]
      [c6GoodResponse, c6BadResponse] (by decide) (by decide)⟩

/-! ### Claim C7 -/

lemma processResponses_refnone :
    ∀ (rs : List AgentResponse) (self : BacktestFramework)
      (market_data : List (String × List Bar)), self.reference_date = none →
      (processResponses self market_data rs).1.trades = self.trades := by
  intro rs
  induction rs with
  | nil => intro self md _; rfl
  | cons r rest ih =>
    intro self md href
    cases hT : r.ticker with
    | none =>
      have h1 : processResponses self md (r :: rest) =
          processResponses self md rest := by
        simp only [processResponses, hT]
      rw [h1]
      exact ih self md href
    | some ticker =>
    cases hA : r.action with
    | none =>
      have h1 : processResponses self md (r :: rest) =
          processResponses self md rest := by
        simp only [processResponses, hT, hA]
      rw [h1]
      exact ih self md href
    | some action =>
    cases hM : r.amount with
    | none =>
      have h1 : processResponses self md (r :: rest) =
          processResponses self md rest := by
        simp only [processResponses, hT, hA, hM]
      rw [h1]
      exact ih self md href
    | some amount =>
    cases hTf : r.expected_timeframe with
    | none =>
      have h1 : processResponses self md (r :: rest) =
          processResponses self md rest := by
        simp only [processResponses, hT, hA, hM, hTf]
      rw [h1]
      exact ih self md href
    | some tf =>
    cases hlk : md.lookup ticker with
    | none =>
      have h1 : processResponses self md (r :: rest) =
          processResponses self md rest := by
        simp only [processResponses, hT, hA, hM, hTf, hlk]
      rw [h1]
      exact ih self md href
    | some df =>
    cases hdf : df.isEmpty with
    | true =>
      have h1 : processResponses self md (r :: rest) =
          processResponses self md rest := by
        simp only [processResponses, hT, hA, hM, hTf, hlk, hdf, if_true]
      rw [h1]
      exact ih self md href
    | false =>
    cases hepp : r.expected_profit_percentage with
    | none =>
      have h1 : processResponses self md (r :: rest) =
          processResponses self md rest := by
        simp only [processResponses, hT, hA, hM, hTf, hlk, hdf, hepp,
          Bool.false_eq_true, if_false]
      rw [h1]
      exact ih self md href
    | some epp =>
      have hex : execute_trade self ticker action df amount
          (r.persona.getD "unknown") (r.reasoning.getD "") tf epp =
          Except.error ("reference_date must be set to execute trades", df) :=
        execute_trade_eq_of_core_err (by rw [href]; exact core_of_ref_none)
      have h1 : processResponses self md (r :: rest) =
          processResponses self (setAssoc md ticker df) rest := by
        simp only [processResponses, hT, hA, hM, hTf, hlk, hdf, hepp, hex,
          Bool.false_eq_true, if_false]
      rw [h1]
      exact ih self _ href

/-- C7 (amended): a missing reference time makes every single simulation call
fail — `execute_trade` raises unconditionally — but `run_backtest` catches
that exception exactly like any per-decision data error: the batch completes
normally with every decision skipped and no trade produced, instead of the
run itself failing. -/
theorem C7_missing_reference_time (self : BacktestFramework)
    (market_data : List (String × List Bar))
    (agent_responses : List AgentResponse)
    (href : self.reference_date = none) :
    (∀ (ticker action : String) (md : List Bar) (ps : ℚ)
      (an rsn tf : String) (epp : ℚ),
      execute_trade self ticker action md ps an rsn tf epp =
        Except.error ("reference_date must be set to execute trades", md)) ∧
    (run_backtest self market_data agent_responses).1.2 = [] := by
  constructor
  · intro ticker action md ps an rsn tf epp
    exact execute_trade_eq_of_core_err (by rw [href]; exact core_of_ref_none)
  · unfold run_backtest
    dsimp only
    rw [processResponses_refnone agent_responses
      { self with trades := [], current_positions := [] } market_data href]

def c7Framework : BacktestFramework := ⟨1/1000, none, [], []⟩

def c7Bar : Bar := ⟨.ts 0, 100, 100, 100, 100, 1⟩

def c7Response : AgentResponse :=
  ⟨some "TICK", some "BUY", some 10, some "1d", some "a", some "r", some (1/100)⟩

/-- Counterexample to C7 as stated: with no reference time set and a batch of
one otherwise valid decision, the run does not fail — it completes normally,
returning the default metrics (with the decision counted) and an empty trade
list; the `ValueError` raised inside `execute_trade` is swallowed by the
`except` block of the loop. -/
theorem C7_counterexample :
    c7Framework.reference_date = none ∧
    execute_trade c7Framework "TICK" "BUY" [c7Bar] 10 "a" "r" "1d" (1/100) =
      Except.error ("reference_date must be set to execute trades", [c7Bar]) ∧
    (run_backtest c7Framework [("TICK", [c7Bar])] [c7Response]).1 =
      ({ total_trades := 1, win_rate := 0, avg_return := 0, max_loss := 0,
         max_gain := 0 }, []) := by
  refine ⟨rfl, rfl, ?_⟩
  rfl

/-- Witness for C7 (amended). -/
theorem C7_missing_reference_time_witness :
    c7Framework.reference_date = none ∧
    ((∀ (ticker action : String) (md : List Bar) (ps : ℚ)
      (an rsn tf : String) (epp : ℚ),
      execute_trade c7Framework ticker action md ps an rsn tf epp =
        Except.error ("reference_date must be set to execute trades", md)) ∧
    (run_backtest c7Framework [("TICK", [c7Bar])] [c7Response]).1.2 = []) :=
  ⟨rfl, C7_missing_reference_time c7Framework [("TICK", [c7Bar])] [c7Response] rfl⟩

/-! ### Claim C10 -/

/-- C10: For every batch run, the `total_trades` field of the returned
metrics equals the number of input decisions, including decisions that were
skipped and produced no TradeResult; it is not the count of successfully
produced trades (witnessed by a batch of one invalid decision, whose run
reports `total_trades = 1` over an empty trade list). -/
theorem C10_total_trades_counts_inputs (self : BacktestFramework)
    (market_data : List (String × List Bar))
    (agent_responses : List AgentResponse) :
    (run_backtest self market_data agent_responses).1.1.total_trades =
      agent_responses.length ∧
    (∃ (fw : BacktestFramework) (md : List (String × List Bar))
      (rs : List AgentResponse),
      (run_backtest fw md rs).1.1.total_trades = rs.length ∧
      (run_backtest fw md rs).1.1.total_trades ≠
        ((run_backtest fw md rs).1.2).length) := by
  constructor
  · unfold run_backtest
    dsimp only
    split
    · rfl
    · rfl
  · refine ⟨⟨1, some 0, [], []⟩, [], [⟨none, none, none, none, none, none, none⟩],
      rfl, ?_⟩
    decide

/-! ### Claim C8 -/

/-- C8 (amended): when the series' `Datetime` column is already of datetime
dtype — the MarketSeries form of the data model — simulating a single
decision leaves the series untouched, whether the call returns a TradeResult
or raises; but when the column is unparsed, the in-place `pd.to_datetime`
conversion of lines 137-138 rewrites the caller's column (see the
counterexample). -/
theorem C8_series_not_mutated_when_parsed (self : BacktestFramework)
    (ticker action : String) (market_data : List Bar) (position_size : ℚ)
    (agent_name reasoning expected_timeframe : String)
    (expected_profit_percentage : ℚ)
    (hparsed : ∀ b ∈ market_data, b.dt.isParsed = true) :
    (∀ r fw' md',
      execute_trade self ticker action market_data position_size agent_name
          reasoning expected_timeframe expected_profit_percentage =
        Except.ok (r, fw', md') → md' = market_data) ∧
    (∀ e,
      execute_trade self ticker action market_data position_size agent_name
          reasoning expected_timeframe expected_profit_percentage =
        Except.error e → e.2 = market_data) := by
  have hmd : ensureDatetime market_data = market_data :=
    ensureDatetime_of_parsed hparsed
  constructor
  · intro r fw' md' hok
    obtain ⟨pos, hcore, _⟩ := execute_trade_ok_core hok
    obtain ⟨_, _, _, _, _, _, _, _, hmd2, _⟩ := core_ok_inv hcore
    rw [hmd2, hmd]
  · intro e herr
    have hce := execute_trade_err_core herr
    rcases core_err_md hce with h | h
    · exact h
    · rw [h, hmd]

def c8RawBar : Bar := ⟨.raw 0, 100, 200, 90, 100, 1⟩

def c8ParsedBar : Bar := ⟨.ts 0, 100, 200, 90, 100, 1⟩

def c8Result : TradeResult :=
  ⟨.ts 0, .ts 0, 100, 101, 10, "LONG", "TICK", 201/100, 799/100, 1, "a", "r",
    .target_hit⟩

/-- Counterexample to C8 as stated: a series whose `Datetime` column is still
raw text is converted in place — after the (successful) call the caller's
series holds different cells than before. -/
theorem C8_counterexample :
    (∃ r fw',
      execute_trade ⟨1/1000, some 0, [], []⟩ "TICK" "BUY" [c8RawBar] 10 "a" "r"
          "1d" (1/100) =
        Except.ok (r, fw', [c8ParsedBar])) ∧
    [c8ParsedBar] ≠ [c8RawBar] := by
  refine ⟨⟨c8Result, ⟨1/1000, some 0, [c8Result],
    [("TICK", ⟨.ts 0, 100, 10, "LONG", "TICK", "a", "r"⟩)]⟩, ?_⟩, by decide⟩
  norm_num [execute_trade, execute_trade_core, parseTimeframe_1d, ensureDatetime,
    findEntry, tradeWindow, findTimeExit, dayGroupScan, scanDayList, sortDays,
    insertSorted, dayOf, qualifies, targetOf, buildResult, setPos, DtVal.hour,
    DtVal.isParsed, DtVal.parse, Bar.parseDt, List.find?, List.filter, List.dedup,
    List.pwFilter, List.all, List.map, c8RawBar, c8ParsedBar, c8Result]

/-- Witness for C8 (amended) on a parsed one-bar series. -/
theorem C8_series_not_mutated_when_parsed_witness :
    (∀ b ∈ [c8ParsedBar], b.dt.isParsed = true) ∧
    ((∀ r fw' md',
      execute_trade specFramework "TICK" "BUY" [c8ParsedBar] 10 "a" "r" "1d"
          (1/100) =
        Except.ok (r, fw', md') → md' = [c8ParsedBar]) ∧
    (∀ e,
      execute_trade specFramework "TICK" "BUY" [c8ParsedBar] 10 "a" "r" "1d"
          (1/100) =
        Except.error e → e.2 = [c8ParsedBar])) :=
  ⟨by decide,
    C8_series_not_mutated_when_parsed specFramework "TICK" "BUY" [c8ParsedBar]
      10 "a" "r" "1d" (1/100) (by decide)⟩

end TradingSim
